import Mathlib

/-!
Verification of the Duet3Expansion closed-loop / SPI / sensor sources.

This file shallowly embeds the C++ sources:
  * `src/Hardware/SharedSpiDevice.cpp`  (polled SPI transport)
  * `src/ClosedLoop/Tuning.cpp`         (tuning manoeuvres and dispatcher)
  * `src/Heating/Sensors/LinearAnalogSensor.cpp`

Machine integers are embedded as `Nat`/`Int` with explicit `% 2^w` where
overflow matters; `float` quantities are embedded as exact rationals `ℚ`;
hardware registers and flags are embedded as explicit oracles (functions of
an abstract poll-time counter).
-/

namespace Duet

/-! ## SPI transport: `src/Hardware/SharedSpiDevice.cpp` -/

/-- `constexpr uint32_t SpiTimeout = 10000;` -/
def SpiTimeout : Nat := 10000

/-- The SPI bus environment, seen through the SERCOM `INTFLAG` / `DATA`
registers.  Each register poll or data access advances an abstract time
counter by one; the flag oracles give the value of each flag at each time. -/
structure SpiBus where
  dre : Nat → Bool      -- INTFLAG.DRE (transmitter ready)
  txc : Nat → Bool      -- INTFLAG.TXC (transmit complete / empty)
  rxc : Nat → Bool      -- INTFLAG.RXC (receive complete)
  dataIn : Nat → Nat    -- value read from the DATA register at time t

/-- One bounded polling loop: poll `flag` starting at time `t` for at most
`budget` polls; return `(timedOut, newTime)`.  `timedOut = true` means the
budget was exhausted without the flag ever being set. -/
def waitFlag (flag : Nat → Bool) : Nat → Nat → Bool × Nat
  | t, 0 => (true, t)
  | t, b + 1 => if flag t then (false, t + 1) else waitFlag flag (t + 1) b

/-- `waitForTxReady`: `while (!DRE) { if (--timeout == 0) return true; }` —
the pre-decrement gives exactly `SpiTimeout` polls of the flag. -/
def waitForTxReady (bus : SpiBus) (t : Nat) : Bool × Nat :=
  waitFlag bus.dre t SpiTimeout

/-- `waitForTxEmpty`: `while (!TXC) { if (!timeout--) return true; }` —
the post-decrement test-on-zero gives `SpiTimeout + 1` polls of the flag. -/
def waitForTxEmpty (bus : SpiBus) (t : Nat) : Bool × Nat :=
  waitFlag bus.txc t (SpiTimeout + 1)

/-- `waitForRxReady`: `while (!RXC) { if (--timeout == 0) return true; }`. -/
def waitForRxReady (bus : SpiBus) (t : Nat) : Bool × Nat :=
  waitFlag bus.rxc t SpiTimeout

/-- The per-byte loop of `SharedSpiDevice::TransceivePacket`.
`tx` is the transmit buffer (`none` models `tx_data == nullptr`, in which
case the fill byte `0x000000FF` is shifted out), indexed by byte position
`i`; `hasRx` models `rx_data != nullptr`; `r` is the number of byte
positions remaining; `t` the current poll time.  Returns
`(success, bytes written to the receive buffer, final time)`. -/
def transceiveLoop (bus : SpiBus) (tx : Option (Nat → Nat)) (hasRx : Bool) :
    Nat → Nat → Nat → Bool × List Nat × Nat
  | _, 0, t => (true, [], t)
  | i, r + 1, t =>
    -- uint32_t dOut = (tx_data == nullptr) ? 0x000000FF : (uint32_t)*tx_data++;
    let _dOut : Nat := match tx with
      | none => 0xFF
      | some f => f i % 256
    let (to₁, t₁) := waitForTxReady bus t
    if to₁ then (false, [], t₁)
    else
      -- SERCOM_SSPI->SPI.DATA.reg = dOut;  (one bus access)
      let t₂ := t₁ + 1
      if hasRx then
        let (to₂, t₃) := waitForRxReady bus t₂
        if to₂ then (false, [], t₃)
        else
          -- const uint8_t dIn = (uint8_t)SERCOM_SSPI->SPI.DATA.reg; *rx_data++ = dIn;
          let d := bus.dataIn t₃ % 256
          let (ok, rest, t₄) := transceiveLoop bus tx hasRx (i + 1) r (t₃ + 1)
          (ok, d :: rest, t₄)
      else
        transceiveLoop bus tx hasRx (i + 1) r t₂

/-- `SharedSpiDevice::TransceivePacket(tx_data, rx_data, len)`.
Returns `(success, bytes written to the receive buffer)`.  When no receive
buffer was supplied, the code waits for transmit-empty (discarding the
timeout result) and does a dummy read of `DATA`, then returns `true`. -/
def TransceivePacket (bus : SpiBus) (tx : Option (Nat → Nat)) (hasRx : Bool)
    (len : Nat) : Bool × List Nat :=
  let (ok, rx, t) := transceiveLoop bus tx hasRx 0 len 0
  if ok then
    if hasRx then (true, rx)
    else
      -- waitForTxEmpty();  (void)SERCOM_SSPI->SPI.DATA.reg;
      let (_discardedTimeout, t₁) := waitForTxEmpty bus t
      let _dummyRead := bus.dataIn t₁
      (true, rx)
  else (false, rx)

/-! ## `SharedSpiDevice::SetupMaster` — CTRLA register value

Bit positions of the SAME5x SERCOM SPI `CTRLA` register fields, from the
MCU vendor header (not part of `src/`): `MODE` at bit 2, `DOPO` at bit 16,
`DIPO` at bit 20, `FORM` at bit 24, `CPHA` bit 28, `CPOL` bit 29. -/

def SERCOM_SPI_CTRLA_MODE (x : Nat) : Nat := x <<< 2
def SERCOM_SPI_CTRLA_DOPO (x : Nat) : Nat := x <<< 16
def SERCOM_SPI_CTRLA_DIPO (x : Nat) : Nat := x <<< 20
def SERCOM_SPI_CTRLA_FORM (x : Nat) : Nat := x <<< 24
def SERCOM_SPI_CTRLA_CPHA : Nat := 1 <<< 28
def SERCOM_SPI_CTRLA_CPOL : Nat := 1 <<< 29

/-- The `CTRLA` value computed and written by `SharedSpiDevice::SetupMaster`
as a function of the device's `SpiMode` `mode` (embedded as its numeric
value, 0–3).  Note the initializer of `regCtrlA` in the source already
includes `SERCOM_SPI_CTRLA_CPOL | SERCOM_SPI_CTRLA_CPHA`. -/
def SetupMasterCtrlA (mode : Nat) : Nat :=
  let regCtrlA := SERCOM_SPI_CTRLA_MODE 3 ||| SERCOM_SPI_CTRLA_DIPO 3 |||
      SERCOM_SPI_CTRLA_DOPO 0 ||| SERCOM_SPI_CTRLA_FORM 0 |||
      SERCOM_SPI_CTRLA_CPOL ||| SERCOM_SPI_CTRLA_CPHA
  let regCtrlA := if mode &&& 2 ≠ 0 then regCtrlA ||| SERCOM_SPI_CTRLA_CPOL else regCtrlA
  let regCtrlA := if mode &&& 1 = 0 then regCtrlA ||| SERCOM_SPI_CTRLA_CPHA else regCtrlA
  regCtrlA

/-- The claimed behaviour of `SetupMaster` (from the specification):
CPOL set iff bit 1 of the mode is set, CPHA set iff bit 0 is clear,
on top of the fixed mode/pinout fields. -/
def claimedSetupMasterCtrlA (mode : Nat) : Nat :=
  let base := SERCOM_SPI_CTRLA_MODE 3 ||| SERCOM_SPI_CTRLA_DIPO 3 |||
      SERCOM_SPI_CTRLA_DOPO 0 ||| SERCOM_SPI_CTRLA_FORM 0
  let base := if mode &&& 2 ≠ 0 then base ||| SERCOM_SPI_CTRLA_CPOL else base
  if mode &&& 1 = 0 then base ||| SERCOM_SPI_CTRLA_CPHA else base

/-! ## `src/Heating/Sensors/LinearAnalogSensor.cpp` -/

/-- `static constexpr unsigned int AdcOversampleBits = 2;` -/
def AdcOversampleBits : Nat := 2

/-- The subset of `TemperatureError` values used by `LinearAnalogSensor`. -/
inductive TemperatureError where
  | success
  | notReady
  deriving DecidableEq, Repr

/-- Outcome of `TemperatureSensor::SetResult`: either a temperature value with
an error code, or an error code alone (no value computed). -/
inductive PollResult where
  | reading (t : ℚ) (e : TemperatureError)
  | errorOnly (e : TemperatureError)
  deriving DecidableEq, Repr

/-- The fields of `LinearAnalogSensor` that `Poll` reads. -/
structure LinearAnalogSensorState where
  lowTemp : ℚ
  linearIncreasePerCount : ℚ
  filtered : Bool
  adcFilterChannel : ℤ

/-- `LinearAnalogSensor::Poll`.  The averaging filter is embedded by its
observable interface: `filterValid` (`IsValid()`), `filterSum` (`GetSum()`),
`numAveraged` (`NumAveraged()`); `portReading` is `port.ReadAnalog()`.
`int32_t` division truncates, hence `Int.tdiv`. -/
def Poll (s : LinearAnalogSensorState) (filterValid : Bool) (filterSum : ℤ)
    (numAveraged : Nat) (portReading : ℚ) : PollResult :=
  if s.filtered ∧ 0 ≤ s.adcFilterChannel then
    if filterValid then
      let averagedTempReading : ℤ := Int.tdiv filterSum (numAveraged >>> AdcOversampleBits : Nat)
      .reading ((averagedTempReading : ℚ) * s.linearIncreasePerCount + s.lowTemp) .success
    else
      .errorOnly .notReady
  else
    .reading (portReading * s.linearIncreasePerCount + s.lowTemp) .success

/-! ## `src/ClosedLoop/Tuning.cpp`

Bitmask constants.  `TUNE_ERR_SYSTEM_ERROR = 1 << 7` is declared in
`ClosedLoop.h`.  The manoeuvre request bits and `TUNE_ERR_NOT_DONE_BASIC`
used by `Tuning.cpp` are declared in a revision of `ClosedLoop.h` that is
not part of `src/`; they are modelled from the spec ("a bitmask of requested
manoeuvres … cleared bit-by-bit"): each manoeuvre owns one distinct bit of a
`uint8_t`. -/

/-- Modelled from the spec: the basic-tuning request bit of the `uint8_t`
tuning bitmask (declared in `ClosedLoop.h`, absent from `src/`). -/
def BASIC_TUNING_MANOEUVRE : Nat := 1

/-- Modelled from the spec: the encoder-calibration request bit. -/
def ENCODER_CALIBRATION_MANOEUVRE : Nat := 2

/-- Modelled from the spec: the continuous-phase-increase request bit. -/
def CONTINUOUS_PHASE_INCREASE_MANOEUVRE : Nat := 4

/-- Modelled from the spec: the step-manoeuvre request bit. -/
def STEP_MANOEUVRE : Nat := 8

/-- Modelled from the spec: the Ziegler–Nichols request bit. -/
def ZIEGLER_NICHOLS_MANOEUVRE : Nat := 16

/-- Modelled from the spec: the not-done-basic-tuning error bit of the
`uint8_t` tuning-error bitmask (declared in `ClosedLoop.h`, absent from
`src/`). -/
def TUNE_ERR_NOT_DONE_BASIC : Nat := 1

/-- `const uint8_t TUNE_ERR_SYSTEM_ERROR = 1 << 7;` from `ClosedLoop.h`. -/
def TUNE_ERR_SYSTEM_ERROR : Nat := 128

/-- `EncoderPositioningType` (`GetPositioningType()`). -/
inductive EncoderPositioningType where
  | absolute
  | relative
  deriving DecidableEq, Repr

/-- The driver mode, as tested by `SmartDrivers::GetDriverMode(0)`;
only `direct` versus anything else matters to `PerformTune`. -/
inductive DriverMode where
  | direct
  | other
  deriving DecidableEq, Repr

/-- One call of `ClosedLoop::SaveBasicTuningResult(slope, origin, xMean, reverse)`. -/
structure SavedTuningResult where
  slope : ℚ
  origin : ℚ
  xMean : ℚ
  reverse : Bool
  deriving DecidableEq, Repr

/-- The `ClosedLoop` shared state touched by the manoeuvres: the commanded
phase (`uint16_t desiredStepPhase`) and logs of the observable calls into
the `ClosedLoop` module (most recent first). -/
structure Globals where
  desiredStepPhase : Nat
  savedResults : List SavedTuningResult
  finishedBasicTuning : Bool
  forwardPolaritySet : Bool
  motorPhaseLog : List (Nat × ℚ)
  targetMotorStepsAdjustments : List ℚ
  deriving DecidableEq, Repr

/-- `ClosedLoop::SetMotorPhase(phase, amplitude)`: log the command. -/
def SetMotorPhase (phase : Nat) (amplitude : ℚ) (g : Globals) : Globals :=
  { g with motorPhaseLog := (phase, amplitude) :: g.motorPhaseLog }

/-- `enum class BasicTuningState` (the state-machine control variable). -/
inductive BasicTuningState where
  | forwardInitial
  | forwards
  | reverseInitial
  | reverse
  deriving DecidableEq, Repr

/-- The function-local `static` variables of `BasicTuning`. -/
structure BasicTuningLocals where
  state : BasicTuningState
  initialStepPhase : Nat          -- uint16_t
  initialEncoderReading : ℤ       -- int32_t
  stepCounter : Nat               -- unsigned int
  regressionAccumulator : ℚ       -- float, embedded exactly
  readingAccumulator : ℚ          -- float, embedded exactly
  deriving DecidableEq, Repr

/-- `constexpr unsigned int NumDummySteps = 8;` -/
def NumDummySteps : Nat := 8

/-- `constexpr uint16_t PhaseIncrement = 8;` -/
def PhaseIncrement : Nat := 8

/-- `constexpr unsigned int NumSamples = 4096/PhaseIncrement;` -/
def NumSamples : Nat := 4096 / PhaseIncrement

/-- `constexpr float HalfNumSamplesMinusOne = (float)(NumSamples - 1) * 0.5;` -/
def HalfNumSamplesMinusOne : ℚ := (NumSamples - 1 : ℕ) / 2

/-- `constexpr float Denominator = (float)PhaseIncrement * (fcube((float)NumSamples) - (float)NumSamples)/12.0;` -/
def Denominator : ℚ := (PhaseIncrement : ℚ) * ((NumSamples : ℚ) ^ 3 - (NumSamples : ℚ)) / 12

/-- One iteration of `static bool BasicTuning(bool firstIteration)`.
`reading` is what `ClosedLoop::encoder->GetReading()` returns on this
iteration.  Returns the updated locals and globals, and the `finished`
flag. -/
def BasicTuning (firstIteration : Bool) (reading : ℤ)
    (lg : BasicTuningLocals × Globals) : (BasicTuningLocals × Globals) × Bool :=
  let l := lg.1
  let g := lg.2
  let l := if firstIteration then { l with state := .forwardInitial, stepCounter := 0 } else l
  let g := if firstIteration then { g with forwardPolaritySet := true } else g
  match l.state with
  | .forwardInitial =>
      let d := (g.desiredStepPhase + PhaseIncrement) % 65536
      let g := SetMotorPhase d 1 { g with desiredStepPhase := d }
      let l := { l with stepCounter := l.stepCounter + 1 }
      let l := if l.stepCounter = NumDummySteps then
          { l with regressionAccumulator := 0, readingAccumulator := 0,
                   stepCounter := 0, initialStepPhase := d, state := .forwards }
        else l
      ((l, g), false)
  | .forwards =>
      let l := if l.stepCounter = 0 then { l with initialEncoderReading := reading } else l
      let dev : ℚ := ((reading - l.initialEncoderReading : ℤ) : ℚ)
      let l := { l with
        readingAccumulator := l.readingAccumulator + dev,
        regressionAccumulator :=
          l.regressionAccumulator + dev * ((l.stepCounter : ℚ) - HalfNumSamplesMinusOne) }
      if l.stepCounter = NumSamples then
        let yMean := l.readingAccumulator / (NumSamples : ℚ) + (l.initialEncoderReading : ℚ)
        let slope := l.regressionAccumulator / Denominator
        let xMean := (l.initialStepPhase : ℚ) + (PhaseIncrement : ℚ) * HalfNumSamplesMinusOne
        let origin := yMean - slope * xMean
        let g := { g with savedResults := ⟨slope, origin, xMean, false⟩ :: g.savedResults }
        (({ l with stepCounter := 0, state := .reverseInitial }, g), false)
      else
        let d := (g.desiredStepPhase + PhaseIncrement) % 65536
        let g := SetMotorPhase d 1 { g with desiredStepPhase := d }
        (({ l with stepCounter := l.stepCounter + 1 }, g), false)
  | .reverseInitial =>
      let d := (g.desiredStepPhase + (65536 - PhaseIncrement)) % 65536
      let g := SetMotorPhase d 1 { g with desiredStepPhase := d }
      let l := { l with stepCounter := l.stepCounter + 1 }
      let l := if l.stepCounter = NumDummySteps then
          { l with regressionAccumulator := 0, readingAccumulator := 0,
                   stepCounter := 0, initialStepPhase := d, state := .reverse }
        else l
      ((l, g), false)
  | .reverse =>
      let l := if l.stepCounter = 0 then { l with initialEncoderReading := reading } else l
      let dev : ℚ := ((reading - l.initialEncoderReading : ℤ) : ℚ)
      let l := { l with
        readingAccumulator := l.readingAccumulator + dev,
        regressionAccumulator :=
          l.regressionAccumulator + dev * ((l.stepCounter : ℚ) - HalfNumSamplesMinusOne) }
      if l.stepCounter = NumSamples then
        let yMean := l.readingAccumulator / (NumSamples : ℚ) + (l.initialEncoderReading : ℚ)
        let slope := l.regressionAccumulator / (-Denominator)
        let xMean := (l.initialStepPhase : ℚ) - (PhaseIncrement : ℚ) * HalfNumSamplesMinusOne
        let origin := yMean - slope * xMean
        let g := { g with savedResults := ⟨slope, origin, xMean, true⟩ :: g.savedResults,
                          finishedBasicTuning := true }
        ((l, g), true)
      else
        let d := (g.desiredStepPhase + (65536 - PhaseIncrement)) % 65536
        let g := SetMotorPhase d 1 { g with desiredStepPhase := d }
        (({ l with stepCounter := l.stepCounter + 1 }, g), false)

/-- Fresh (startup) values of the `BasicTuning` statics. -/
def initBasicTuningLocals : BasicTuningLocals :=
  { state := .forwardInitial, initialStepPhase := 0, initialEncoderReading := 0,
    stepCounter := 0, regressionAccumulator := 0, readingAccumulator := 0 }

/-- Fresh (startup) values of the `ClosedLoop` globals. -/
def initGlobals : Globals :=
  { desiredStepPhase := 0, savedResults := [], finishedBasicTuning := false,
    forwardPolaritySet := false, motorPhaseLog := [], targetMotorStepsAdjustments := [] }

/-- Iterate `BasicTuning` for `n` control-loop ticks the way
`ClosedLoop::PerformTune` drives it while the basic-tuning bit is set:
the first iteration gets `firstIteration = true`, every later tick's
`firstIteration` flag is the previous tick's `finished` return.  Tick `t`
reads `enc t` from the encoder.  Returns
`(next firstIteration flag, locals, globals)`. -/
def runBasicTuning (enc : Nat → ℤ) (l₀ : BasicTuningLocals) (g₀ : Globals) :
    Nat → Bool × BasicTuningLocals × Globals
  | 0 => (true, l₀, g₀)
  | n + 1 =>
    let (first, l, g) := runBasicTuning enc l₀ g₀ n
    let ((l', g'), fin) := BasicTuning first (enc n) (l, g)
    (fin, l', g')

/-- The function-local `static` variables of `EncoderCalibration`, together
with the state of the absolute encoder's LUT that the manoeuvre drives
(`ClearLUT` / `StoreLUTValueForPosition` / `StoreLUT`). -/
structure EncoderCalibrationLocals where
  targetPosition : ℤ              -- static int
  positionCounter : ℤ             -- static int
  lut : List (ℤ × ℚ)              -- StoreLUTValueForPosition entries, newest first
  lutStored : Bool                -- StoreLUT() called
  deriving DecidableEq, Repr

/-- Fresh values of the `EncoderCalibration` statics and LUT. -/
def initEncoderCalibrationLocals : EncoderCalibrationLocals :=
  { targetPosition := 0, positionCounter := 0, lut := [], lutStored := false }

/-- Constant properties of the attached `AS5047D` absolute encoder and the
scaling constant used for `realWorldPos`.  `GetMaxValue`, `GetLUTResolution`
and `ClosedLoop::PulsePerStepToExternalUnits` are implemented outside
`src/`; they are modelled from the spec as opaque per-device constants
("resolution determines bucket spacing (`maxValue / lutResolution`
buckets)"). -/
structure EncoderConfig where
  maxValue : Nat                  -- absoluteEncoder->GetMaxValue()
  lutResolution : ℤ               -- absoluteEncoder->GetLUTResolution()
  ppsExternal : ℚ                 -- PulsePerStepToExternalUnits(encoderPulsePerStep, AS5047)

/-- The updates that one `EncoderCalibration` iteration makes to its static
locals before the termination test: the `firstIteration` reset
(`ClearLUT`, `targetPosition = 0`, `positionCounter = 0`) followed by the
compare-and-nudge of the position counter (or the LUT store and target
advance when the reading equals the target). -/
def ecStepLocals (cfg : EncoderConfig) (currentEncoderReading : ℤ)
    (firstIteration : Bool) (l : EncoderCalibrationLocals) : EncoderCalibrationLocals :=
  let l : EncoderCalibrationLocals := if firstIteration then
      { l with lut := [], targetPosition := 0, positionCounter := 0 }
    else l
  if currentEncoderReading < l.targetPosition then
    { l with positionCounter := l.positionCounter + 1 }
  else if l.targetPosition < currentEncoderReading then
    { l with positionCounter := l.positionCounter - 1 }
  else
    let realWorldPos : ℚ := (cfg.maxValue : ℚ) * (l.positionCounter : ℚ) /
        (1024 * (360 / cfg.ppsExternal))
    { l with lut := (currentEncoderReading, realWorldPos) :: l.lut,
             targetPosition := l.targetPosition + cfg.lutResolution }

/-- The `uint16_t` desired step phase commanded by a non-finishing
`EncoderCalibration` iteration:
`(positionCounter > 0 ? 0 : 4096) + positionCounter % 4096`, where C++ `%`
on `int` is the truncating remainder and the `uint16_t` conversion is
`% 2^16`. -/
def ecPhase (positionCounter : ℤ) : Nat :=
  ((((if 0 < positionCounter then (0 : ℤ) else 4096) +
      Int.tmod positionCounter 4096)) % 65536).toNat

/-- One iteration of `static bool EncoderCalibration(bool firstIteration)`.
`currentEncoderReading` is `ClosedLoop::currentEncoderReading`.  The
`(unsigned int)targetPosition` cast is `% 2^32`. -/
def EncoderCalibration (cfg : EncoderConfig) (encType : EncoderPositioningType)
    (currentEncoderReading : ℤ) (firstIteration : Bool)
    (lg : EncoderCalibrationLocals × Globals) :
    (EncoderCalibrationLocals × Globals) × Bool :=
  if encType = .relative then
    ((lg.1, lg.2), true)          -- we don't do this tuning for relative encoders
  else
    if (cfg.maxValue : Nat) ≤
        (((ecStepLocals cfg currentEncoderReading firstIteration lg.1).targetPosition) %
          (2 ^ 32 : ℤ)).toNat then
      (({ ecStepLocals cfg currentEncoderReading firstIteration lg.1 with lutStored := true },
        lg.2), true)              -- we are finished
    else
      let l := ecStepLocals cfg currentEncoderReading firstIteration lg.1
      let d := ecPhase l.positionCounter
      ((l, SetMotorPhase d 1 { lg.2 with desiredStepPhase := d }), false)

/-- `static bool Step(bool firstIteration)`: adjust the target motor steps
by 4 and finish immediately. -/
def Step (_firstIteration : Bool) (g : Globals) : Globals × Bool :=
  ({ g with targetMotorStepsAdjustments := 4 :: g.targetMotorStepsAdjustments }, true)

/-- All state read or written by `ClosedLoop::PerformTune`. -/
structure TuningSystem where
  tuning : Nat                    -- uint8_t bitmask ClosedLoop::tuning
  tuningError : Nat               -- uint8_t bitmask ClosedLoop::tuningError
  newTuningMove : Bool            -- function-local static of PerformTune
  driverMode : DriverMode         -- SmartDrivers::GetDriverMode(0)
  encoderPresent : Bool           -- encoder != nullptr
  encoderType : EncoderPositioningType
  currentEncoderReading : ℤ       -- ClosedLoop::currentEncoderReading
  bt : BasicTuningLocals
  ec : EncoderCalibrationLocals
  g : Globals
  deriving DecidableEq, Repr

/-- One tick of `void ClosedLoop::PerformTune()`.  `reading` is what
`encoder->GetReading()` returns if `BasicTuning` runs on this tick. -/
def PerformTune (cfg : EncoderConfig) (reading : ℤ) (s : TuningSystem) : TuningSystem :=
  -- Check we are in direct drive mode and we have an encoder
  if s.driverMode ≠ .direct ∨ ¬s.encoderPresent then
    { s with tuningError := s.tuningError ||| TUNE_ERR_SYSTEM_ERROR, tuning := 0 }
  -- Run one iteration of the one, highest priority, tuning move
  else if s.tuning &&& BASIC_TUNING_MANOEUVRE ≠ 0 then
    let s := if s.encoderType = .absolute ∧ s.tuning &&& ENCODER_CALIBRATION_MANOEUVRE ≠ 0 then
        { s with ec := { s.ec with lut := [] } }    -- ((AS5047D*)encoder)->ClearLUT()
      else s
    let r := BasicTuning s.newTuningMove reading (s.bt, s.g)
    let s := { s with bt := r.1.1, g := r.1.2, newTuningMove := r.2 }
    if s.newTuningMove then
      { s with tuningError := s.tuningError &&& (255 ^^^ TUNE_ERR_NOT_DONE_BASIC),
               tuning := s.tuning &&& (255 ^^^ BASIC_TUNING_MANOEUVRE) }
    else s
  else if s.tuning &&& ENCODER_CALIBRATION_MANOEUVRE ≠ 0 then
    let r := EncoderCalibration cfg s.encoderType s.currentEncoderReading s.newTuningMove (s.ec, s.g)
    let s := { s with ec := r.1.1, g := r.1.2, newTuningMove := r.2 }
    if s.newTuningMove then { s with tuning := 0 } else s
  else if s.tuning &&& STEP_MANOEUVRE ≠ 0 then
    let r := Step s.newTuningMove s.g
    let s := { s with g := r.1, newTuningMove := r.2 }
    if s.newTuningMove then { s with tuning := 0 } else s
  else
    { s with tuning := 0, newTuningMove := true }

/-! ## Concrete states used by witnesses and counterexamples -/

/-- An arbitrary encoder configuration. -/
def cfg₀ : EncoderConfig := { maxValue := 1024, lutResolution := 16, ppsExternal := 4 }

/-- A tuning system that is not in direct-drive mode. -/
def sysNoDirect : TuningSystem :=
  { tuning := 3, tuningError := 2, newTuningMove := true, driverMode := .other,
    encoderPresent := true, encoderType := .absolute, currentEncoderReading := 0,
    bt := initBasicTuningLocals, ec := initEncoderCalibrationLocals, g := initGlobals }

/-- A tuning system requesting only the continuous-phase-increase manoeuvre. -/
def sysCont : TuningSystem :=
  { tuning := CONTINUOUS_PHASE_INCREASE_MANOEUVRE, tuningError := 2, newTuningMove := false,
    driverMode := .direct, encoderPresent := true, encoderType := .absolute,
    currentEncoderReading := 0, bt := initBasicTuningLocals,
    ec := initEncoderCalibrationLocals, g := initGlobals }

/-- A tuning system requesting only the Ziegler–Nichols manoeuvre. -/
def sysZN : TuningSystem :=
  { sysCont with tuning := ZIEGLER_NICHOLS_MANOEUVRE }

/-! ## Helper lemmas on truncating remainder -/

theorem neg_tmod_dividend (a b : ℤ) : (-a).tmod b = -(a.tmod b) := by
  rw [Int.tmod_def, Int.tmod_def, Int.neg_tdiv]
  ring

theorem tmod_nonpos_of_nonpos {a : ℤ} (h : a ≤ 0) (b : ℤ) : a.tmod b ≤ 0 := by
  have h1 : 0 ≤ Int.tmod (-a) b := Int.tmod_nonneg b (by omega)
  rw [neg_tmod_dividend] at h1
  omega

theorem neg_lt_tmod_of_nonpos {a b : ℤ} (h : a ≤ 0) (hb : 0 < b) : -b < a.tmod b := by
  have h2 : Int.tmod (-a) b < b := Int.tmod_lt_of_pos _ hb
  rw [neg_tmod_dividend] at h2
  omega

/-! ## Theorems for the claims -/

/-- Claim C3: for every tuning bitmask, calling `PerformTune` while not in
direct-drive mode or with no encoder present sets the system-error bit in
the tuning-error bitmask, zeroes the tuning bitmask, and performs no
manoeuvre step (every other component of the state, in particular the
manoeuvre locals and the motor-phase command log, is unchanged). -/
theorem performTune_precondition_guard (cfg : EncoderConfig) (reading : ℤ)
    (s : TuningSystem) (h : s.driverMode ≠ .direct ∨ s.encoderPresent = false) :
    PerformTune cfg reading s =
      { s with tuningError := s.tuningError ||| TUNE_ERR_SYSTEM_ERROR, tuning := 0 } := by
  have h' : s.driverMode ≠ DriverMode.direct ∨ ¬s.encoderPresent := by
    rcases h with h | h
    · exact Or.inl h
    · exact Or.inr (by simp [h])
  unfold PerformTune
  rw [if_pos h']

/-- Witness for C3 at a concrete state: the guard fires when the driver is
not in direct mode. -/
theorem performTune_precondition_guard_witness :
    PerformTune cfg₀ 0 sysNoDirect =
      { sysNoDirect with
          tuningError := sysNoDirect.tuningError ||| TUNE_ERR_SYSTEM_ERROR, tuning := 0 } :=
  performTune_precondition_guard cfg₀ 0 sysNoDirect (Or.inl (by decide))

/-- Claim C4, counterexample: with only the continuous-phase-increase bit
set (and preconditions satisfied), `PerformTune` silently zeroes the tuning
bitmask and leaves the tuning-error bitmask unchanged — there is no
'unimplemented' failure indication of any kind, contradicting the claim.
(The unimplemented branches are compiled out with `#if 0`, so control falls
into the final `else`.) -/
theorem performTune_unimplemented_silent :
    PerformTune cfg₀ 0 sysCont = { sysCont with tuning := 0, newTuningMove := true } := by
  decide

/-- Claim C4 (amended): when the tuning bitmask requests only the
continuous-phase-increase manoeuvre or only the Ziegler–Nichols manoeuvre,
`PerformTune` silently clears the request — it zeroes the tuning bitmask,
sets no error bit, and performs no manoeuvre step — rather than producing
an explicit 'unimplemented' failure result. -/
theorem performTune_unimplemented_cleared (cfg : EncoderConfig) (reading : ℤ)
    (s : TuningSystem) (hd : s.driverMode = .direct) (he : s.encoderPresent = true)
    (ht : s.tuning = CONTINUOUS_PHASE_INCREASE_MANOEUVRE ∨
      s.tuning = ZIEGLER_NICHOLS_MANOEUVRE) :
    PerformTune cfg reading s = { s with tuning := 0, newTuningMove := true } := by
  unfold PerformTune
  rcases ht with ht | ht
  · simp [hd, he, ht, CONTINUOUS_PHASE_INCREASE_MANOEUVRE, ZIEGLER_NICHOLS_MANOEUVRE,
      BASIC_TUNING_MANOEUVRE, ENCODER_CALIBRATION_MANOEUVRE, STEP_MANOEUVRE]
    rw [if_pos (show (4 : Nat) &&& 2 = 0 by decide), if_pos (show (4 : Nat) &&& 8 = 0 by decide)]
  · simp [hd, he, ht, CONTINUOUS_PHASE_INCREASE_MANOEUVRE, ZIEGLER_NICHOLS_MANOEUVRE,
      BASIC_TUNING_MANOEUVRE, ENCODER_CALIBRATION_MANOEUVRE, STEP_MANOEUVRE]
    rw [if_pos (show (16 : Nat) &&& 2 = 0 by decide), if_pos (show (16 : Nat) &&& 8 = 0 by decide)]

/-- Witness for the amended C4 at a concrete state requesting only the
Ziegler–Nichols manoeuvre. -/
theorem performTune_unimplemented_cleared_witness :
    PerformTune cfg₀ 0 sysZN = { sysZN with tuning := 0, newTuningMove := true } :=
  performTune_unimplemented_cleared cfg₀ 0 sysZN rfl rfl (Or.inr rfl)

/-- Claim C5, counterexample: on the very first `EncoderCalibration` step
with the encoder already at the target (reading 0, position counter 0), the
step does not finish and commands desired step phase 4096 — outside the
0–4095 range the claim asserts. -/
theorem encoderCalibration_phase_4096 :
    (EncoderCalibration cfg₀ .absolute 0 true
        (initEncoderCalibrationLocals, initGlobals)).2 = false ∧
    (EncoderCalibration cfg₀ .absolute 0 true
        (initEncoderCalibrationLocals, initGlobals)).1.2.desiredStepPhase = 4096 := by
  simp [EncoderCalibration, ecStepLocals, ecPhase, SetMotorPhase, cfg₀,
    initEncoderCalibrationLocals, initGlobals]

/-- Claim C5 (amended): after every non-finishing `EncoderCalibration` step,
the commanded desired step phase equals
`(positionCounter > 0 ? 0 : 4096) + positionCounter % 4096` (truncating
remainder) and lies in the range 0 to 4096 inclusive: a positive counter is
reduced modulo 4096 (giving 0–4095), and a counter ≤ 0 is wrapped by adding
4096, which yields 4096 — not a value in 0–4095 — exactly when the counter
is zero or a negative multiple of 4096. -/
theorem encoderCalibration_phase_range (cfg : EncoderConfig) (reading : ℤ)
    (first : Bool) (lg : EncoderCalibrationLocals × Globals)
    (l' : EncoderCalibrationLocals) (g' : Globals)
    (h : EncoderCalibration cfg .absolute reading first lg = ((l', g'), false)) :
    g'.desiredStepPhase =
      ((if 0 < l'.positionCounter then (0 : ℤ) else 4096) +
        Int.tmod l'.positionCounter 4096).toNat ∧
    g'.desiredStepPhase ≤ 4096 ∧
    (g'.desiredStepPhase = 4096 →
      l'.positionCounter ≤ 0 ∧ Int.tmod l'.positionCounter 4096 = 0) := by
  unfold EncoderCalibration at h
  rw [if_neg (by decide : ¬(EncoderPositioningType.absolute = .relative))] at h
  split at h
  · simp at h
  · simp only [Prod.mk.injEq] at h
    obtain ⟨⟨hl, hg⟩, -⟩ := h
    subst hl
    subst hg
    simp only [SetMotorPhase]
    by_cases h0 : 0 < (ecStepLocals cfg reading first lg.1).positionCounter
    · have h1 : 0 ≤ Int.tmod (ecStepLocals cfg reading first lg.1).positionCounter 4096 :=
        Int.tmod_nonneg _ (le_of_lt h0)
      have h2 : Int.tmod (ecStepLocals cfg reading first lg.1).positionCounter 4096 < 4096 :=
        Int.tmod_lt_of_pos _ (by omega)
      simp only [ecPhase, if_pos h0]
      omega
    · have h1 : Int.tmod (ecStepLocals cfg reading first lg.1).positionCounter 4096 ≤ 0 :=
        tmod_nonpos_of_nonpos (by omega) _
      have h2 : -(4096 : ℤ) <
          Int.tmod (ecStepLocals cfg reading first lg.1).positionCounter 4096 :=
        neg_lt_tmod_of_nonpos (by omega) (by omega)
      simp only [ecPhase, if_neg h0]
      omega

/-- Witness for the amended C5: the concrete non-finishing step of the C5
counterexample satisfies the amended phase formula and range. -/
theorem encoderCalibration_phase_range_witness :
    (⟨4096, [], false, false, [(4096, 1)], []⟩ : Globals).desiredStepPhase =
      ((if 0 < (0 : ℤ) then (0 : ℤ) else 4096) + Int.tmod 0 4096).toNat ∧
    (⟨4096, [], false, false, [(4096, 1)], []⟩ : Globals).desiredStepPhase ≤ 4096 ∧
    ((⟨4096, [], false, false, [(4096, 1)], []⟩ : Globals).desiredStepPhase = 4096 →
      (0 : ℤ) ≤ 0 ∧ Int.tmod (0 : ℤ) 4096 = 0) :=
  encoderCalibration_phase_range cfg₀ 0 true (initEncoderCalibrationLocals, initGlobals)
    ⟨16, 0, [(0, 0)], false⟩ ⟨4096, [], false, false, [(4096, 1)], []⟩
    (by simp [EncoderCalibration, ecStepLocals, ecPhase, SetMotorPhase, cfg₀,
      initEncoderCalibrationLocals, initGlobals])

/-- Bit arithmetic helper: clearing bit 0 of a byte leaves bit 1 intact. -/
theorem and_254_and_2 (x : Nat) (h : x &&& 2 ≠ 0) : (x &&& (255 ^^^ 1)) &&& 2 ≠ 0 := by
  have h254 : (255 : Nat) ^^^ 1 = 254 := by decide
  rw [h254, Nat.and_assoc, show (254 : Nat) &&& 2 = 2 by decide]
  exact h

/-- Claim C2: with the dispatcher preconditions satisfied, (1) whenever the
basic-tuning bit is set (in particular when the encoder-calibration bit is
also set), `PerformTune` steps `BasicTuning` and leaves the calibration
manoeuvre's counters untouched; when that step reports finished, only the
basic-tuning request bit and the not-done-basic error bit are cleared, and
the encoder-calibration bit is still pending; when it does not finish, the
bitmasks are unchanged (so basic tuning keeps being stepped on every tick
until it finishes); (2) completion of encoder calibration zeroes the whole
tuning bitmask; (3) completion of the step manoeuvre (which always finishes)
zeroes the whole tuning bitmask. -/
theorem performTune_dispatch_priority (cfg : EncoderConfig) (reading : ℤ)
    (s : TuningSystem) (hd : s.driverMode = .direct) (he : s.encoderPresent = true) :
    (s.tuning &&& BASIC_TUNING_MANOEUVRE ≠ 0 →
      s.tuning &&& ENCODER_CALIBRATION_MANOEUVRE ≠ 0 →
      (PerformTune cfg reading s).bt = (BasicTuning s.newTuningMove reading (s.bt, s.g)).1.1 ∧
      (PerformTune cfg reading s).ec.targetPosition = s.ec.targetPosition ∧
      (PerformTune cfg reading s).ec.positionCounter = s.ec.positionCounter ∧
      ((BasicTuning s.newTuningMove reading (s.bt, s.g)).2 = true →
        (PerformTune cfg reading s).tuning = s.tuning &&& (255 ^^^ BASIC_TUNING_MANOEUVRE) ∧
        (PerformTune cfg reading s).tuningError =
          s.tuningError &&& (255 ^^^ TUNE_ERR_NOT_DONE_BASIC) ∧
        (PerformTune cfg reading s).tuning &&& ENCODER_CALIBRATION_MANOEUVRE ≠ 0) ∧
      ((BasicTuning s.newTuningMove reading (s.bt, s.g)).2 = false →
        (PerformTune cfg reading s).tuning = s.tuning ∧
        (PerformTune cfg reading s).tuningError = s.tuningError)) ∧
    (s.tuning &&& BASIC_TUNING_MANOEUVRE = 0 →
      s.tuning &&& ENCODER_CALIBRATION_MANOEUVRE ≠ 0 →
      (EncoderCalibration cfg s.encoderType s.currentEncoderReading s.newTuningMove
          (s.ec, s.g)).2 = true →
      (PerformTune cfg reading s).tuning = 0) ∧
    (s.tuning &&& BASIC_TUNING_MANOEUVRE = 0 →
      s.tuning &&& ENCODER_CALIBRATION_MANOEUVRE = 0 →
      s.tuning &&& STEP_MANOEUVRE ≠ 0 →
      (PerformTune cfg reading s).tuning = 0) := by
  have hfalse : ¬(s.driverMode ≠ DriverMode.direct ∨ ¬s.encoderPresent) := by
    simp [hd, he]
  refine ⟨?_, ?_, ?_⟩
  · intro hb hc
    unfold PerformTune
    rw [if_neg hfalse, if_pos hb]
    by_cases habs : s.encoderType = .absolute ∧ s.tuning &&& ENCODER_CALIBRATION_MANOEUVRE ≠ 0
    · rw [if_pos habs]
      rcases hr : BasicTuning s.newTuningMove reading (s.bt, s.g) with ⟨⟨bt', g'⟩, fin⟩
      dsimp only
      rw [hr]
      cases fin with
      | true =>
        exact ⟨rfl, rfl, rfl, fun _ => ⟨rfl, rfl, and_254_and_2 s.tuning hc⟩,
          fun hcontra => Bool.noConfusion hcontra⟩
      | false =>
        exact ⟨rfl, rfl, rfl, fun hcontra => Bool.noConfusion hcontra,
          fun _ => ⟨rfl, rfl⟩⟩
    · rw [if_neg habs]
      rcases hr : BasicTuning s.newTuningMove reading (s.bt, s.g) with ⟨⟨bt', g'⟩, fin⟩
      dsimp only
      rw [hr]
      cases fin with
      | true =>
        exact ⟨rfl, rfl, rfl, fun _ => ⟨rfl, rfl, and_254_and_2 s.tuning hc⟩,
          fun hcontra => Bool.noConfusion hcontra⟩
      | false =>
        exact ⟨rfl, rfl, rfl, fun hcontra => Bool.noConfusion hcontra,
          fun _ => ⟨rfl, rfl⟩⟩
  · intro hb hc hfin
    unfold PerformTune
    rw [if_neg hfalse, if_neg (by simpa using hb), if_pos hc]
    rcases hr : EncoderCalibration cfg s.encoderType s.currentEncoderReading
        s.newTuningMove (s.ec, s.g) with ⟨⟨ec', g'⟩, fin⟩
    rw [hr] at hfin
    dsimp only at hfin
    subst hfin
    simp
  · intro hb hc hstep
    unfold PerformTune
    rw [if_neg hfalse, if_neg (by simpa using hb), if_neg (by simpa using hc), if_pos hstep]
    simp [Step]

/-- A system with both the basic-tuning and encoder-calibration bits set,
fresh manoeuvre locals, and preconditions satisfied. -/
def sysBoth : TuningSystem :=
  { tuning := BASIC_TUNING_MANOEUVRE ||| ENCODER_CALIBRATION_MANOEUVRE, tuningError := 1,
    newTuningMove := true, driverMode := .direct, encoderPresent := true,
    encoderType := .absolute, currentEncoderReading := 0, bt := initBasicTuningLocals,
    ec := initEncoderCalibrationLocals, g := initGlobals }

/-- Witness for C2 at a concrete state with both bits set: `BasicTuning` is
stepped (the basic-tuning locals change hands), the calibration counters
are untouched, and since this first step does not finish, both bitmasks are
unchanged. -/
theorem performTune_dispatch_priority_witness :
    (PerformTune cfg₀ 7 sysBoth).bt =
      (BasicTuning sysBoth.newTuningMove 7 (sysBoth.bt, sysBoth.g)).1.1 ∧
    (PerformTune cfg₀ 7 sysBoth).ec.targetPosition = sysBoth.ec.targetPosition ∧
    (PerformTune cfg₀ 7 sysBoth).tuning = sysBoth.tuning := by
  have h := (performTune_dispatch_priority cfg₀ 7 sysBoth rfl rfl).1
    (by decide) (by decide)
  refine ⟨h.1, h.2.1, ?_⟩
  have hfin : (BasicTuning sysBoth.newTuningMove 7 (sysBoth.bt, sysBoth.g)).2 = false := by
    simp [BasicTuning, sysBoth, initBasicTuningLocals, initGlobals, SetMotorPhase,
      NumDummySteps, PhaseIncrement]
  exact (h.2.2.2.2 hfin).1

/-- A flag that is never set exhausts the polling budget. -/
theorem waitFlag_never (flag : Nat → Bool) (hf : ∀ u, flag u = false) :
    ∀ b t, waitFlag flag t b = (true, t + b) := by
  intro b
  induction b with
  | zero => intro t; simp [waitFlag]
  | succ n ih =>
    intro t
    rw [waitFlag, hf t]
    simp only [Bool.false_eq_true, if_false, ih (t + 1)]
    exact congrArg _ (by omega)

/-- A flag that is set on the first poll succeeds immediately. -/
theorem waitFlag_ready (flag : Nat → Bool) (t b : Nat) (hb : 0 < b)
    (hf : flag t = true) : waitFlag flag t b = (false, t + 1) := by
  cases b with
  | zero => omega
  | succ n => rw [waitFlag, hf]; simp

/-- Per-byte loop with a receive buffer: at most `r` bytes are ever written,
and on failure strictly fewer than `r`. -/
theorem transceiveLoop_rx_length (bus : SpiBus) (tx : Option (Nat → Nat)) :
    ∀ r i t, (transceiveLoop bus tx true i r t).2.1.length ≤ r ∧
      ((transceiveLoop bus tx true i r t).1 = false →
        (transceiveLoop bus tx true i r t).2.1.length < r) ∧
      ((transceiveLoop bus tx true i r t).1 = true →
        (transceiveLoop bus tx true i r t).2.1.length = r) := by
  intro r
  induction r with
  | zero => intro i t; simp [transceiveLoop]
  | succ n ih =>
    intro i t
    rw [transceiveLoop]
    rcases h₁ : waitForTxReady bus t with ⟨to₁, t₁⟩
    cases to₁ with
    | true => simp
    | false =>
      simp only [Bool.false_eq_true, if_false, if_true]
      rcases h₂ : waitForRxReady bus (t₁ + 1) with ⟨to₂, t₃⟩
      cases to₂ with
      | true => simp
      | false =>
        simp only [Bool.false_eq_true, if_false]
        rcases h₃ : transceiveLoop bus tx true (i + 1) n (t₃ + 1) with ⟨ok, rest, t₄⟩
        have hih := ih (i + 1) (t₃ + 1)
        rw [h₃] at hih
        dsimp only at hih ⊢
        simp only [List.length_cons]
        refine ⟨by omega, fun hok => ?_, fun hok => ?_⟩
        · have := hih.2.1 hok
          omega
        · have := hih.2.2 hok
          omega

/-- The loop result is the whole call's result when a receive buffer is
present (the transmit-empty epilogue only runs for pure writes). -/
theorem transceivePacket_rx_eq_loop (bus : SpiBus) (tx : Option (Nat → Nat)) (len : Nat) :
    TransceivePacket bus tx true len =
      ((transceiveLoop bus tx true 0 len 0).1, (transceiveLoop bus tx true 0 len 0).2.1) := by
  rw [TransceivePacket]
  rcases h : transceiveLoop bus tx true 0 len 0 with ⟨ok, rx, t⟩
  cases ok <;> simp

/-- If the receiver-ready flag is never set, the first byte position already
fails (whether at the transmitter-ready wait or the receiver-ready wait). -/
theorem transceiveLoop_rxc_never (bus : SpiBus) (tx : Option (Nat → Nat))
    (hf : ∀ u, bus.rxc u = false) (r i t : Nat) (hr : 0 < r) :
    (transceiveLoop bus tx true i r t).1 = false := by
  cases r with
  | zero => omega
  | succ n =>
    rw [transceiveLoop]
    rcases h₁ : waitForTxReady bus t with ⟨to₁, t₁⟩
    cases to₁ with
    | true => simp
    | false =>
      simp only [Bool.false_eq_true, if_false, if_true]
      have h₂ : waitForRxReady bus (t₁ + 1) = (true, t₁ + 1 + SpiTimeout) :=
        waitFlag_never bus.rxc hf SpiTimeout (t₁ + 1)
      rw [h₂]
      simp

/-- Claim C6: with a receive buffer, a `TransceivePacket` call never writes
more than `len` bytes into it; it returns success exactly when all `len`
byte positions completed, so a failure (in this embedding a call fails
precisely when a transmitter-ready or receiver-ready wait exhausted its
fixed `SpiTimeout` iteration budget) leaves the remaining byte positions
uncompleted; and on a bus whose receiver-ready flag is never asserted, any
call with `len > 0` returns failure. -/
theorem transceivePacket_rx_timeout (bus : SpiBus) (tx : Option (Nat → Nat)) (len : Nat) :
    (TransceivePacket bus tx true len).2.length ≤ len ∧
    ((TransceivePacket bus tx true len).1 = false →
      (TransceivePacket bus tx true len).2.length < len) ∧
    ((TransceivePacket bus tx true len).1 = true →
      (TransceivePacket bus tx true len).2.length = len) ∧
    (0 < len → (∀ u, bus.rxc u = false) → (TransceivePacket bus tx true len).1 = false) := by
  rw [transceivePacket_rx_eq_loop]
  refine ⟨(transceiveLoop_rx_length bus tx len 0 0).1,
    (transceiveLoop_rx_length bus tx len 0 0).2.1,
    (transceiveLoop_rx_length bus tx len 0 0).2.2, ?_⟩
  intro hlen hf
  exact transceiveLoop_rxc_never bus tx hf len 0 0 hlen

/-- A bus on which no flag is ever ready. -/
def busNone : SpiBus :=
  { dre := fun _ => false, txc := fun _ => false, rxc := fun _ => false, dataIn := fun _ => 0 }

/-- Witness for C6: on the never-ready bus, a 2-byte read returns failure
and wrote fewer than 2 bytes. -/
theorem transceivePacket_rx_timeout_witness :
    (TransceivePacket busNone none true 2).1 = false ∧
    (TransceivePacket busNone none true 2).2.length < 2 :=
  ⟨(transceivePacket_rx_timeout busNone none 2).2.2.2 (by decide) (fun _ => rfl),
   (transceivePacket_rx_timeout busNone none 2).2.1
     ((transceivePacket_rx_timeout busNone none 2).2.2.2 (by decide) (fun _ => rfl))⟩

/-- Pure-write loop with an always-ready transmitter: every byte position
completes. -/
theorem transceiveLoop_noRx_ok (bus : SpiBus) (tx : Option (Nat → Nat))
    (hdre : ∀ u, bus.dre u = true) :
    ∀ r i t, (transceiveLoop bus tx false i r t).1 = true := by
  intro r
  induction r with
  | zero => intro i t; simp [transceiveLoop]
  | succ n ih =>
    intro i t
    rw [transceiveLoop]
    have h₁ : waitForTxReady bus t = (false, t + 1) :=
      waitFlag_ready bus.dre t SpiTimeout (by decide) (hdre t)
    rw [h₁]
    simpa using ih (i + 1) (t + 1 + 1)

/-- Claim C9: a pure-write `TransceivePacket` call (no receive buffer) whose
per-byte transmitter-ready waits all succeed returns success even though the
final transmit-empty wait exhausts its iteration budget — the timeout result
of `waitForTxEmpty` is discarded and never reported to the caller. -/
theorem transceivePacket_txEmpty_discarded (bus : SpiBus) (tx : Option (Nat → Nat))
    (len : Nat) (hdre : ∀ u, bus.dre u = true) (htxc : ∀ u, bus.txc u = false) :
    (TransceivePacket bus tx false len).1 = true := by
  rw [TransceivePacket]
  rcases h : transceiveLoop bus tx false 0 len 0 with ⟨ok, rx, t⟩
  have hok : ok = true := by
    have := transceiveLoop_noRx_ok bus tx hdre len 0 0
    rw [h] at this
    exact this
  subst hok
  simp

/-- A bus whose transmitter is always ready but whose transmit-complete flag
never rises (the transmit-empty wait must exhaust its budget). -/
def busTxOnly : SpiBus :=
  { dre := fun _ => true, txc := fun _ => false, rxc := fun _ => false, dataIn := fun _ => 0 }

/-- Witness for C9 at a concrete 3-byte pure write. -/
theorem transceivePacket_txEmpty_discarded_witness :
    (TransceivePacket busTxOnly (some fun i => i) false 3).1 = true :=
  transceivePacket_txEmpty_discarded busTxOnly (some fun i => i) 3
    (fun _ => rfl) (fun _ => rfl)

/-- Claim C7: `SetupMaster` is supposed to program CPOL/CPHA as a function
of the device's mode bits, but the initializer of `regCtrlA` already
includes `SERCOM_SPI_CTRLA_CPOL | SERCOM_SPI_CTRLA_CPHA`, so the mode
conditionals are dead: every mode produces the same CTRLA value, with CPOL
set even for mode 0 (whose bit 1 is clear), while the claimed behaviour
distinguishes modes. -/
theorem setupMaster_mode_bits_dead :
    (∀ mode, SetupMasterCtrlA mode = SetupMasterCtrlA 0) ∧
    SetupMasterCtrlA 0 &&& SERCOM_SPI_CTRLA_CPOL ≠ 0 ∧
    claimedSetupMasterCtrlA 0 &&& SERCOM_SPI_CTRLA_CPOL = 0 ∧
    claimedSetupMasterCtrlA 0 ≠ claimedSetupMasterCtrlA 2 := by
  refine ⟨?_, by decide, by decide, by decide⟩
  intro mode
  unfold SetupMasterCtrlA
  split <;> split <;> decide

/-- Claim C10: in filtered mode with a valid filter channel, when the
averaging filter is not yet valid, `LinearAnalogSensor::Poll` sets the
not-ready error and computes no temperature value from the filter sum. -/
theorem poll_filter_not_ready (s : LinearAnalogSensorState) (filterSum : ℤ)
    (numAveraged : Nat) (portReading : ℚ) (hf : s.filtered = true)
    (hc : 0 ≤ s.adcFilterChannel) :
    Poll s false filterSum numAveraged portReading = .errorOnly .notReady := by
  unfold Poll
  rw [if_pos ⟨by simp [hf], hc⟩]
  simp

/-- Witness for C10 at a concrete sensor state. -/
theorem poll_filter_not_ready_witness :
    Poll { lowTemp := 25, linearIncreasePerCount := 1/10, filtered := true,
           adcFilterChannel := 3 } false 100 4 0 = .errorOnly .notReady :=
  poll_filter_not_ready _ 100 4 0 rfl (by decide)


/-- Shifting every encoder reading by `c` shifts a saved tuning result's
origin by `c` and nothing else. -/
def shiftResult (c : ℤ) (r : SavedTuningResult) : SavedTuningResult :=
  { r with origin := r.origin + (c : ℚ) }

def ShiftRelL (c : ℤ) (l l' : BasicTuningLocals) : Prop :=
  l'.state = l.state ∧ l'.initialStepPhase = l.initialStepPhase ∧
  l'.stepCounter = l.stepCounter ∧ l'.regressionAccumulator = l.regressionAccumulator ∧
  l'.readingAccumulator = l.readingAccumulator ∧
  ((l.state = .forwards ∨ l.state = .reverse) → 0 < l.stepCounter →
    l'.initialEncoderReading = l.initialEncoderReading + c)

def ShiftRelG (c : ℤ) (g g' : Globals) : Prop :=
  g'.desiredStepPhase = g.desiredStepPhase ∧
  g'.savedResults = g.savedResults.map (shiftResult c) ∧
  g'.finishedBasicTuning = g.finishedBasicTuning ∧
  g'.forwardPolaritySet = g.forwardPolaritySet ∧
  g'.motorPhaseLog = g.motorPhaseLog ∧
  g'.targetMotorStepsAdjustments = g.targetMotorStepsAdjustments

set_option maxHeartbeats 2000000 in
theorem basicTuning_shift (c : ℤ) (first : Bool) (r : ℤ) (l l' : BasicTuningLocals)
    (g g' : Globals) (hL : ShiftRelL c l l') (hG : ShiftRelG c g g') :
    (BasicTuning first (r + c) (l', g')).2 = (BasicTuning first r (l, g)).2 ∧
    ShiftRelL c (BasicTuning first r (l, g)).1.1 (BasicTuning first (r + c) (l', g')).1.1 ∧
    ShiftRelG c (BasicTuning first r (l, g)).1.2 (BasicTuning first (r + c) (l', g')).1.2 := by
  obtain ⟨st, isp, ier, sc, ra, rd⟩ := l
  obtain ⟨st', isp', ier', sc', ra', rd'⟩ := l'
  obtain ⟨dsp, sv, fb, fp, ml, ta⟩ := g
  obtain ⟨dsp', sv', fb', fp', ml', ta'⟩ := g'
  obtain ⟨hs, hp, hc', hra, hrd, hier⟩ := hL
  obtain ⟨hdsp, hsv, hfin, hfp, hml, hta⟩ := hG
  dsimp only at hs hp hc' hra hrd hier hdsp hsv hfin hfp hml hta
  subst hs hp hc' hra hrd hdsp hsv hfin hfp hml hta
  cases first
  case true =>
    simp [BasicTuning, ShiftRelL, ShiftRelG, shiftResult, SetMotorPhase, NumDummySteps]
  case false =>
    cases st'
    case forwardInitial =>
      simp only [BasicTuning, Bool.false_eq_true, if_false]
      simp [ShiftRelL, ShiftRelG, shiftResult, SetMotorPhase]
      split_ifs <;> simp
    case reverseInitial =>
      simp only [BasicTuning, Bool.false_eq_true, if_false]
      simp [ShiftRelL, ShiftRelG, shiftResult, SetMotorPhase]
      split_ifs <;> simp
    case forwards =>
      by_cases hsc : sc' = 0
      · subst hsc
        simp only [BasicTuning, Bool.false_eq_true, if_false]
        simp [ShiftRelL, ShiftRelG, shiftResult, SetMotorPhase, NumSamples, PhaseIncrement]
      · have hier' : ier' = ier + c := hier (Or.inl rfl) (Nat.pos_of_ne_zero hsc)
        subst hier'
        by_cases hNS : sc' = 512
        · subst hNS
          simp only [BasicTuning, Bool.false_eq_true, if_false]
          simp [ShiftRelL, ShiftRelG, shiftResult, SetMotorPhase, hsc,
            NumSamples, PhaseIncrement, SavedTuningResult.mk.injEq]
          push_cast
          ring
        · simp only [BasicTuning, Bool.false_eq_true, if_false]
          simp [ShiftRelL, ShiftRelG, shiftResult, SetMotorPhase, hsc, hNS, NumSamples, PhaseIncrement]
    case reverse =>
      by_cases hsc : sc' = 0
      · subst hsc
        simp only [BasicTuning, Bool.false_eq_true, if_false]
        simp [ShiftRelL, ShiftRelG, shiftResult, SetMotorPhase, NumSamples, PhaseIncrement]
      · have hier' : ier' = ier + c := hier (Or.inr rfl) (Nat.pos_of_ne_zero hsc)
        subst hier'
        by_cases hNS : sc' = 512
        · subst hNS
          simp only [BasicTuning, Bool.false_eq_true, if_false]
          simp [ShiftRelL, ShiftRelG, shiftResult, SetMotorPhase, hsc,
            NumSamples, PhaseIncrement, SavedTuningResult.mk.injEq]
          push_cast
          ring
        · simp only [BasicTuning, Bool.false_eq_true, if_false]
          simp [ShiftRelL, ShiftRelG, shiftResult, SetMotorPhase, hsc, hNS, NumSamples, PhaseIncrement]

/-- The tick-level simulation, lifted to whole runs from the fresh state. -/
theorem runBasicTuning_shift (enc : Nat → ℤ) (c : ℤ) : ∀ n : Nat,
    (runBasicTuning (fun t => enc t + c) initBasicTuningLocals initGlobals n).1 =
      (runBasicTuning enc initBasicTuningLocals initGlobals n).1 ∧
    ShiftRelL c (runBasicTuning enc initBasicTuningLocals initGlobals n).2.1
      (runBasicTuning (fun t => enc t + c) initBasicTuningLocals initGlobals n).2.1 ∧
    ShiftRelG c (runBasicTuning enc initBasicTuningLocals initGlobals n).2.2
      (runBasicTuning (fun t => enc t + c) initBasicTuningLocals initGlobals n).2.2 := by
  intro n
  induction n with
  | zero =>
    simp [runBasicTuning, ShiftRelL, ShiftRelG, initBasicTuningLocals, initGlobals]
  | succ n ih =>
    obtain ⟨hfl, hLrel, hGrel⟩ := ih
    rcases h1 : runBasicTuning enc initBasicTuningLocals initGlobals n with ⟨f1, l1, g1⟩
    rcases h2 : runBasicTuning (fun t => enc t + c) initBasicTuningLocals initGlobals n
      with ⟨f2, l2, g2⟩
    rw [h1, h2] at hfl hLrel hGrel
    dsimp only at hfl hLrel hGrel
    subst hfl
    have hstep := basicTuning_shift c f2 (enc n) l1 l2 g1 g2 hLrel hGrel
    simp only [runBasicTuning, h1, h2]
    rcases hb1 : BasicTuning f2 (enc n) (l1, g1) with ⟨⟨l1n, g1n⟩, fin1⟩
    rcases hb2 : BasicTuning f2 (enc n + c) (l2, g2) with ⟨⟨l2n, g2n⟩, fin2⟩
    rw [hb1, hb2] at hstep
    dsimp only at hstep ⊢
    exact ⟨hstep.1, hstep.2.1, hstep.2.2⟩

/-- Claim C8: running Basic Tuning on encoder readings all shifted by a
constant `c` produces, for every number of ticks, exactly the saved results
of the unshifted run with each origin shifted by `c`: in particular every
saved slope (and reference phase) is identical and every saved origin
differs by exactly `c`. -/
theorem basicTuning_offset_invariance (enc : Nat → ℤ) (c : ℤ) (n : Nat) :
    (runBasicTuning (fun t => enc t + c) initBasicTuningLocals initGlobals n).2.2.savedResults =
      ((runBasicTuning enc initBasicTuningLocals initGlobals n).2.2.savedResults).map
        (shiftResult c) ∧
    ((runBasicTuning (fun t => enc t + c) initBasicTuningLocals
        initGlobals n).2.2.savedResults).map SavedTuningResult.slope =
      ((runBasicTuning enc initBasicTuningLocals
        initGlobals n).2.2.savedResults).map SavedTuningResult.slope ∧
    ((runBasicTuning (fun t => enc t + c) initBasicTuningLocals
        initGlobals n).2.2.savedResults).map SavedTuningResult.origin =
      ((runBasicTuning enc initBasicTuningLocals
        initGlobals n).2.2.savedResults).map (fun q => q.origin + (c : ℚ)) := by
  have h := ((runBasicTuning_shift enc c n).2.2).2.1
  refine ⟨h, ?_, ?_⟩ <;>
    simp [h, shiftResult, List.map_map, Function.comp]


/-- `runBasicTuning` restarted at an arbitrary base tick `t₀` and state `s`:
`iterBT enc t₀ n s` advances `n` ticks, tick `j` reading `enc (t₀ + j)`. -/
def iterBT (enc : Nat → ℤ) (t₀ : Nat) : Nat → (Bool × BasicTuningLocals × Globals) →
    Bool × BasicTuningLocals × Globals
  | 0, s => s
  | n + 1, s =>
    let (first, l, g) := iterBT enc t₀ n s
    let ((l', g'), fin) := BasicTuning first (enc (t₀ + n)) (l, g)
    (fin, l', g')

theorem runBasicTuning_eq_iterBT (enc : Nat → ℤ) (l₀ : BasicTuningLocals) (g₀ : Globals) :
    ∀ n, runBasicTuning enc l₀ g₀ n = iterBT enc 0 n (true, l₀, g₀) := by
  intro n
  induction n with
  | zero => rfl
  | succ m ih => simp only [runBasicTuning, iterBT, ih, Nat.zero_add]

theorem iterBT_add (enc : Nat → ℤ) (t₀ n : Nat) (s : Bool × BasicTuningLocals × Globals) :
    ∀ m, iterBT enc t₀ (n + m) s = iterBT enc (t₀ + n) m (iterBT enc t₀ n s) := by
  intro m
  induction m with
  | zero => rfl
  | succ k ih =>
    show iterBT enc t₀ ((n + k) + 1) s = _
    simp only [iterBT, ih, Nat.add_assoc]

/-- The state after the eight forward settling ticks from a fresh start. -/
theorem iterBT_settle_forward (enc : Nat → ℤ) :
    iterBT enc 0 8 (true, initBasicTuningLocals, initGlobals) =
      (false,
       ⟨.forwards, 64, 0, 0, 0, 0⟩,
       ⟨64, [], false, true,
        [(64, 1), (56, 1), (48, 1), (40, 1), (32, 1), (24, 1), (16, 1), (8, 1)], []⟩) := by
  rfl

/-- Partial reading accumulator of a forward sweep that started reading at
tick `t₀`: `sum(reading - baseline)` over the first `k` samples. -/
def fwdPartialRead (enc : Nat → ℤ) (t₀ k : Nat) : ℚ :=
  ∑ i in Finset.range k, ((enc (t₀ + i) - enc t₀ : ℤ) : ℚ)

/-- Partial regression accumulator of a forward sweep that started reading
at tick `t₀`: `sum((reading - baseline) * (index - (NumSamples-1)/2))` over
the first `k` samples. -/
def fwdPartialReg (enc : Nat → ℤ) (t₀ k : Nat) : ℚ :=
  ∑ i in Finset.range k,
    ((enc (t₀ + i) - enc t₀ : ℤ) : ℚ) * ((i : ℚ) - HalfNumSamplesMinusOne)

/-- The motor-phase commands logged by the first `k` data ticks of the
forward sweep (newest first), starting from phase 64. -/
def fwdLog : Nat → List (Nat × ℚ)
  | 0 => []
  | k + 1 => (64 + 8 * (k + 1), 1) :: fwdLog k

/-- Invariant of the forward data-collection loop: after `k` ticks
(`1 ≤ k ≤ 512`) from the loop entry state, the accumulators hold the sums
over samples `0..k-1`, the baseline is the first reading, and the phase has
advanced to `64 + 8k`. -/
theorem iterBT_forwards_loop (enc : Nat → ℤ) (t₀ : Nat) (ier₀ : ℤ) (g : Globals)
    (hdsp : g.desiredStepPhase = 64) :
    ∀ k, 1 ≤ k → k ≤ 512 →
    iterBT enc t₀ k (false, ⟨.forwards, 64, ier₀, 0, 0, 0⟩, g) =
      (false,
       ⟨.forwards, 64, enc t₀, k, fwdPartialReg enc t₀ k, fwdPartialRead enc t₀ k⟩,
       { g with desiredStepPhase := 64 + 8 * k,
                motorPhaseLog := fwdLog k ++ g.motorPhaseLog }) := by
  intro k
  induction k with
  | zero => omega
  | succ m ih =>
    intro _ hm
    cases Nat.eq_zero_or_pos m with
    | inl hm0 =>
      subst hm0
      show iterBT enc t₀ (0 + 1) _ = _
      rw [iterBT_add enc t₀ 0 _ 1]
      simp only [iterBT]
      simp [BasicTuning, SetMotorPhase, NumSamples, PhaseIncrement, hdsp,
        fwdPartialRead, fwdPartialReg, fwdLog, Finset.sum_range_one]
    | inr hmpos =>
      have hrec := ih hmpos (by omega)
      have hmod : (64 + 8 * m + 8) % 65536 = 64 + 8 * (m + 1) := by omega
      show iterBT enc t₀ (m + 1) _ = _
      rw [iterBT_add enc t₀ m _ 1, hrec]
      simp only [iterBT]
      simp [BasicTuning, SetMotorPhase, NumSamples, PhaseIncrement, hmod,
        Nat.pos_iff_ne_zero.mp hmpos, show ¬(m = 512) by omega,
        fwdPartialRead, fwdPartialReg, fwdLog, Finset.sum_range_succ]
      ring

/-- The save tick: after 513 data ticks the forward sweep has accumulated
all 513 samples (indices 0 through 512 — one more than `NumSamples`), saved
the forward regression result, and moved to the reverse settling state. -/
theorem iterBT_forwards_save (enc : Nat → ℤ) (t₀ : Nat) (ier₀ : ℤ) (g : Globals)
    (hdsp : g.desiredStepPhase = 64) :
    iterBT enc t₀ 513 (false, ⟨.forwards, 64, ier₀, 0, 0, 0⟩, g) =
      (false,
       ⟨.reverseInitial, 64, enc t₀, 0, fwdPartialReg enc t₀ 513, fwdPartialRead enc t₀ 513⟩,
       { g with desiredStepPhase := 4160,
                savedResults :=
                  ⟨fwdPartialReg enc t₀ 513 / Denominator,
                   fwdPartialRead enc t₀ 513 / 512 + (enc t₀ : ℚ) -
                     fwdPartialReg enc t₀ 513 / Denominator * 2108,
                   2108, false⟩ :: g.savedResults,
                motorPhaseLog := fwdLog 512 ++ g.motorPhaseLog }) := by
  have hreg : fwdPartialReg enc t₀ 513 = fwdPartialReg enc t₀ 512 +
      ((enc (t₀ + 512) - enc t₀ : ℤ) : ℚ) * ((512 : ℚ) - HalfNumSamplesMinusOne) := by
    rw [fwdPartialReg, fwdPartialReg, show (513 : ℕ) = 512 + 1 from rfl,
      Finset.sum_range_succ]
    push_cast
    ring
  have hread : fwdPartialRead enc t₀ 513 = fwdPartialRead enc t₀ 512 +
      ((enc (t₀ + 512) - enc t₀ : ℤ) : ℚ) := by
    rw [fwdPartialRead, fwdPartialRead, show (513 : ℕ) = 512 + 1 from rfl,
      Finset.sum_range_succ]
  show iterBT enc t₀ (512 + 1) _ = _
  rw [iterBT_add enc t₀ 512 _ 1,
    iterBT_forwards_loop enc t₀ ier₀ g hdsp 512 (by omega) (by omega)]
  simp only [iterBT]
  simp [BasicTuning, SetMotorPhase, NumSamples, PhaseIncrement, HalfNumSamplesMinusOne,
    hreg, hread]
  norm_num

/-- The full forward pass from a fresh start: 8 settling ticks plus 513
data ticks; the saved forward result is the closed-form regression over the
513 accumulated samples. -/
theorem runBasicTuning_521 (enc : Nat → ℤ) :
    runBasicTuning enc initBasicTuningLocals initGlobals 521 =
      (false,
       ⟨.reverseInitial, 64, enc 8, 0, fwdPartialReg enc 8 513, fwdPartialRead enc 8 513⟩,
       ⟨4160,
        [⟨fwdPartialReg enc 8 513 / Denominator,
          fwdPartialRead enc 8 513 / 512 + (enc 8 : ℚ) -
            fwdPartialReg enc 8 513 / Denominator * 2108, 2108, false⟩],
        false, true,
        fwdLog 512 ++ [(64, 1), (56, 1), (48, 1), (40, 1), (32, 1), (24, 1), (16, 1), (8, 1)],
        []⟩) := by
  rw [runBasicTuning_eq_iterBT, show (521 : ℕ) = 8 + 513 from rfl, iterBT_add,
    iterBT_settle_forward]
  rw [show (0 + 8 : ℕ) = 8 from rfl, iterBT_forwards_save enc 8 0 _ rfl]

/-- Gauss sum over `ℚ`. -/
theorem sum_range_cast (n : Nat) :
    ∑ i in Finset.range n, (i : ℚ) = (n : ℚ) * ((n : ℚ) - 1) / 2 := by
  induction n with
  | zero => simp
  | succ m ih =>
    rw [Finset.sum_range_succ, ih]
    push_cast
    ring

/-- Weighted square-sum over `ℚ`. -/
theorem sum_range_mul_sub (c : ℚ) (n : Nat) :
    ∑ i in Finset.range n, (i : ℚ) * ((i : ℚ) - c) =
      (n : ℚ) * ((n : ℚ) - 1) * (2 * (n : ℚ) - 1) / 6 -
        c * ((n : ℚ) * ((n : ℚ) - 1) / 2) := by
  induction n with
  | zero => simp
  | succ m ih =>
    rw [Finset.sum_range_succ, ih]
    push_cast
    ring

theorem fwdPartialReg_linear : fwdPartialReg (fun t => (t : ℤ)) 8 513 = 11316096 := by
  have hterm : ∀ i ∈ Finset.range 513,
      ((((8 + i : ℕ) : ℤ) - ((8 : ℕ) : ℤ) : ℤ) : ℚ) * ((i : ℚ) - HalfNumSamplesMinusOne) =
        (i : ℚ) * ((i : ℚ) - HalfNumSamplesMinusOne) := by
    intro i _
    push_cast
    ring
  rw [fwdPartialReg, Finset.sum_congr rfl hterm, sum_range_mul_sub]
  norm_num [HalfNumSamplesMinusOne, NumSamples, PhaseIncrement]

theorem fwdPartialRead_linear : fwdPartialRead (fun t => (t : ℤ)) 8 513 = 131328 := by
  have hterm : ∀ i ∈ Finset.range 513,
      ((((8 + i : ℕ) : ℤ) - ((8 : ℕ) : ℤ) : ℤ) : ℚ) = (i : ℚ) := by
    intro i _
    push_cast
    ring
  rw [fwdPartialRead, Finset.sum_congr rfl hterm, sum_range_cast]
  norm_num

/-- The forward-sweep slope the claim describes: `NumSamples` samples with
indices `0` through `NumSamples - 1`, each weighted by
`index - (NumSamples-1)/2` after baseline subtraction, divided by
`Denominator = PhaseIncrement * (NumSamples³ - NumSamples)/12`. -/
def claimedForwardSlope (enc : Nat → ℤ) (t₀ : Nat) : ℚ :=
  (∑ i in Finset.range NumSamples,
    ((enc (t₀ + i) - enc t₀ : ℤ) : ℚ) * ((i : ℚ) - HalfNumSamplesMinusOne)) / Denominator

theorem claimedForwardSlope_linear : claimedForwardSlope (fun t => (t : ℤ)) 8 = 1 / 8 := by
  have hterm : ∀ i ∈ Finset.range NumSamples,
      ((((8 + i : ℕ) : ℤ) - ((8 : ℕ) : ℤ) : ℤ) : ℚ) * ((i : ℚ) - HalfNumSamplesMinusOne) =
        (i : ℚ) * ((i : ℚ) - HalfNumSamplesMinusOne) := by
    intro i _
    push_cast
    ring
  rw [claimedForwardSlope, Finset.sum_congr rfl hterm, sum_range_mul_sub]
  norm_num [HalfNumSamplesMinusOne, NumSamples, PhaseIncrement, Denominator]

/-- Claim C1: evaluated on the synthetic encoder `reading(t) = t` from a
fresh start, the forward sweep saves slope `517/4088`, not the `1/8` that
the claim's `NumSamples`-sample regression formula yields on the same data:
the sweep loop accumulates samples at `stepCounter = 0 .. NumSamples`
inclusive — `NumSamples + 1 = 513` samples, one more than the
`N = 4096/increment` the claim (and the derivation comment in the source)
prescribes — while still dividing by `NumSamples` and by the
`N`-sample denominator. -/
theorem basicTuning_sweep_sample_count_bug :
    (runBasicTuning (fun t => (t : ℤ)) initBasicTuningLocals
        initGlobals 521).2.2.savedResults =
      [⟨517/4088, -1070/511, 2108, false⟩] ∧
    claimedForwardSlope (fun t => (t : ℤ)) 8 = 1/8 ∧
    (517 : ℚ)/4088 ≠ 1/8 := by
  refine ⟨?_, claimedForwardSlope_linear, by norm_num⟩
  rw [runBasicTuning_521]
  dsimp only
  rw [fwdPartialReg_linear, fwdPartialRead_linear]
  norm_num [Denominator, NumSamples, PhaseIncrement, SavedTuningResult.mk.injEq]

end Duet
